import Mathlib

set_option linter.unusedSectionVars false

/-!
Shallow embedding of the settings store in `porcupine/config.py`.

The module-level Python state (`_config`, `_default_config`, `_saved_config`,
`_callbacks`, `_validators`) becomes an explicit `ConfigState` record that every
operation threads.  Python dicts are insertion-ordered association lists with
unique keys; `d[k] = v` updates in place or appends, `del d[k]` removes the
entry.  Values are a type parameter `V` with decidable equality, matching the
store's value-genericity (`value == old_value` is Python `==`).

Validator and callback functions are identified by natural-number ids; their
behaviour is supplied as environments `venv : Nat → V → Bool` (a validator's
verdict) and `cenv : Nat → V → Option Nat` (`none` = the callback returns
normally, `some e` = it raises exception `e`).  Operations return an `OpResult`
carrying the next state, the list of validator calls made, the list of callback
invocations made (in order, each with the argument passed), and the exception
propagated to the caller, if any.  Python's `KeyError` is rendered as
`keyNotFound`, the `ValueError` from `list.remove` as `notFound`, and
`json.JSONDecodeError` as `jsonDecodeError`, following the spec's names for
these conditions.  `defaultdict`'s creation of empty list entries on read is
unobservable (all reads go through a `.getD []`) and is elided.

The config file is modelled by `FileState`: absent, unreadable (an `OSError`
or `UnicodeError` while opening/decoding), readable but not valid JSON, or a
parsed section→key→value table.  `color_themes` feeds only the registered
`color_theme` validator; its effect is absorbed into `venv`.
-/

namespace Porcupine

/-- Lookup in an insertion-ordered association list (Python `d[k]` / `d.get`). -/
def alistGet {κ α : Type} [DecidableEq κ] : List (κ × α) → κ → Option α
  | [], _ => none
  | (k', v) :: rest, k => if k' = k then some v else alistGet rest k

/-- Python `d[k] = v`: replace the existing entry in place, else append. -/
def alistSet {κ α : Type} [DecidableEq κ] : List (κ × α) → κ → α → List (κ × α)
  | [], k, v => [(k, v)]
  | (k', v') :: rest, k, v =>
      if k' = k then (k, v) :: rest else (k', v') :: alistSet rest k v

/-- Python `del d[k]` on a unique-key dict: drop the entry for `k`. -/
def alistDel {κ α : Type} [DecidableEq κ] : List (κ × α) → κ → List (κ × α)
  | [], _ => []
  | (k', v') :: rest, k =>
      if k' = k then alistDel rest k else (k', v') :: alistDel rest k

/-- Python `list.remove`: drop the first occurrence only. -/
def removeFirst {α : Type} [DecidableEq α] : List α → α → List α
  | [], _ => []
  | x :: rest, a => if x = a then rest else x :: removeFirst rest a

/-- A section → (key → value) table, as `_config`, `_default_config` and
`_saved_config` are shaped. -/
abbrev Dict2 (V : Type) := List (String × List (String × V))

/-- Two-level lookup `d[section][key]`, `none` when either level misses. -/
def dictGet2 {V : Type} (d : Dict2 V) (s k : String) : Option V :=
  match alistGet d s with
  | none => none
  | some sec => alistGet sec k

/-- The module-level mutable state of `porcupine.config`. -/
structure ConfigState (V : Type) where
  /-- `_config`: only non-default settings. -/
  config : Dict2 V
  /-- `_default_config`. -/
  defaultConfig : Dict2 V
  /-- `_saved_config`. -/
  savedConfig : Dict2 V
  /-- `_callbacks`: listener ids per (section, key). -/
  callbacks : List ((String × String) × List Nat)
  /-- `_validators`: validator ids per (section, key). -/
  validators : List ((String × String) × List Nat)
deriving DecidableEq

/-- The exceptions the store can propagate. -/
inductive PyErr (V : Type) where
  /-- Python `KeyError` from a missing table entry (spec: `KeyNotFound`). -/
  | keyNotFound
  /-- `InvalidValue(...)`, carrying the key and offending value of its message. -/
  | invalidValue (key : String) (value : V)
  /-- Python `ValueError` from `list.remove` in `disconnect` (spec: `NotFound`). -/
  | notFound
  /-- `json.JSONDecodeError` from parsing the config file. -/
  | jsonDecodeError
  /-- An exception raised by a user callback, tagged with its code. -/
  | callbackExc (e : Nat)
deriving DecidableEq

/-- Outcome of one store operation: the new module state, the validator calls
made, the callbacks invoked (in order, with their argument), and the exception
that propagates to the caller, if any. -/
structure OpResult (V : Type) where
  state : ConfigState V
  checked : List (Nat × V)
  invoked : List (Nat × V)
  err : Option (PyErr V)
deriving DecidableEq

variable {V : Type} [DecidableEq V]

/-- `get(section, key)`: the override value if present, else the default,
else `KeyError`. -/
def get (st : ConfigState V) (s k : String) : Except (PyErr V) V :=
  match dictGet2 st.config s k with
  | some v => .ok v
  | none =>
      match dictGet2 st.defaultConfig s k with
      | some v => .ok v
      | none => .error .keyNotFound

/-- The `for validator in _validators[section, key]` loop: call each validator
in order, stopping at the first that rejects. Returns the calls made and
whether all accepted. -/
def runValidators (venv : Nat → V → Bool) : List Nat → V → List (Nat × V) × Bool
  | [], _ => ([], true)
  | r :: rest, v =>
      if venv r v then
        let t := runValidators venv rest v
        ((r, v) :: t.1, t.2)
      else ([(r, v)], false)

/-- The `for callback in _callbacks[section, key]` loop: invoke each callback
in order; an exception from a callback propagates at once, so later callbacks
are not reached. -/
def runCallbacks (cenv : Nat → V → Option Nat) : List Nat → V → List (Nat × V) × Option (PyErr V)
  | [], _ => ([], none)
  | c :: rest, v =>
      match cenv c v with
      | some e => ([(c, v)], some (.callbackExc e))
      | none =>
          let t := runCallbacks cenv rest v
          ((c, v) :: t.1, t.2)

/-- Write `value` into `_config[section][key]`, creating the section when the
assignment raises `KeyError` (the `try`/`except` in `set`). -/
def configWrite (d : Dict2 V) (s k : String) (value : V) : Dict2 V :=
  match alistGet d s with
  | some sec => alistSet d s (alistSet sec k value)
  | none => alistSet d s [(k, value)]

/-- `del _config[section][key]`, cascading to `del _config[section]` when the
section becomes empty. -/
def configDelete (d : Dict2 V) (s : String) (sec : List (String × V)) (k : String) : Dict2 V :=
  let sec' := alistDel sec k
  if sec' = [] then alistDel d s else alistSet d s sec'

/-- `set(section, key, value)`. Mirrors the source line by line: `get` first
(propagating `KeyError`), the equality short-circuit, the validator loop, the
comparison against `_default_config[section][key]` (itself a `KeyError` site),
the delete-or-write branch, then the callback loop. -/
def set (venv : Nat → V → Bool) (cenv : Nat → V → Option Nat)
    (st : ConfigState V) (s k : String) (value : V) : OpResult V :=
  match get st s k with
  | .error e => ⟨st, [], [], some e⟩
  | .ok old =>
      if value = old then ⟨st, [], [], none⟩
      else
        let vr := runValidators venv ((alistGet st.validators (s, k)).getD []) value
        if vr.2 then
          match dictGet2 st.defaultConfig s k with
          | none => ⟨st, vr.1, [], some .keyNotFound⟩
          | some d =>
              if value = d then
                match alistGet st.config s with
                | none => ⟨st, vr.1, [], some .keyNotFound⟩
                | some sec =>
                    if (alistGet sec k).isSome then
                      let st' := { st with config := configDelete st.config s sec k }
                      let t := runCallbacks cenv ((alistGet st.callbacks (s, k)).getD []) value
                      ⟨st', vr.1, t.1, t.2⟩
                    else ⟨st, vr.1, [], some .keyNotFound⟩
              else
                let st' := { st with config := configWrite st.config s k value }
                let t := runCallbacks cenv ((alistGet st.callbacks (s, k)).getD []) value
                ⟨st', vr.1, t.1, t.2⟩
        else ⟨st, vr.1, [], some (.invalidValue k value)⟩

/-- `add_key(section, key, default_value)`. -/
def add_key (st : ConfigState V) (s k : String) (d : V) : ConfigState V :=
  { st with defaultConfig := configWrite st.defaultConfig s k d }

/-- The state with `callback` appended to `_callbacks[section, key]` — the
first mutation `connect` performs. -/
def connectAppend (st : ConfigState V) (s k : String) (cb : Nat) : ConfigState V :=
  let newList := ((alistGet st.callbacks (s, k)).getD []) ++ [cb]
  { st with callbacks := alistSet st.callbacks (s, k) newList }

/-- `connect(section, key, callback, run_now=...)` with a callback supplied
(the decorator and context-manager sugar only wrap this path): append the
callback to `_callbacks[section, key]`, then, when `run_now`, invoke it with
`get(section, key)` — either of which may raise after the append. -/
def connect (cenv : Nat → V → Option Nat) (st : ConfigState V)
    (s k : String) (cb : Nat) (run_now : Bool) : OpResult V :=
  let st' := connectAppend st s k cb
  if run_now then
    match get st' s k with
    | .error e => ⟨st', [], [], some e⟩
    | .ok v =>
        match cenv cb v with
        | some e => ⟨st', [], [(cb, v)], some (.callbackExc e)⟩
        | none => ⟨st', [], [(cb, v)], none⟩
  else ⟨st', [], [], none⟩

/-- `disconnect(section, key, callback)`: `_callbacks[section, key].remove(callback)`,
which drops the first occurrence or raises `ValueError`. -/
def disconnect (st : ConfigState V) (s k : String) (cb : Nat) : OpResult V :=
  let l := (alistGet st.callbacks (s, k)).getD []
  if cb ∈ l then
    let st' := { st with callbacks := alistSet st.callbacks (s, k) (removeFirst l cb) }
    ⟨st', [], [], none⟩
  else ⟨st, [], [], some .notFound⟩

/-- `validator(section, key)` applied to a validator id: append it to
`_validators[section, key]`. -/
def addValidator (st : ConfigState V) (s k : String) (r : Nat) : ConfigState V :=
  let newList := ((alistGet st.validators (s, k)).getD []) ++ [r]
  { st with validators := alistSet st.validators (s, k) newList }

/-- What `open(_config_file)` + `json.load` can encounter. -/
inductive FileState (V : Type) where
  /-- `FileNotFoundError`: silently ignored. -/
  | missing
  /-- `UnicodeError` or `OSError` while reading: logged, ignored. -/
  | unreadable
  /-- Reads and decodes fine but is not valid JSON: `json.JSONDecodeError`. -/
  | corrupt
  /-- Parses to a section → key → value table. -/
  | json (data : Dict2 V)
deriving DecidableEq

/-- The per-entry loop of `load`: `set` each persisted entry in order; an
`InvalidValue` is logged and the loop continues, any other exception
propagates at once and aborts the rest. -/
def loadEntries (venv : Nat → V → Bool) (cenv : Nat → V → Option Nat)
    (st : ConfigState V) : List (String × String × V) → OpResult V
  | [] => ⟨st, [], [], none⟩
  | (s, k, v) :: rest =>
      let r := set venv cenv st s k v
      match r.err with
      | some (.invalidValue _ _) =>
          let r' := loadEntries venv cenv r.state rest
          ⟨r'.state, r.checked ++ r'.checked, r.invoked ++ r'.invoked, r'.err⟩
      | some e => ⟨r.state, r.checked, r.invoked, some e⟩
      | none =>
          let r' := loadEntries venv cenv r.state rest
          ⟨r'.state, r.checked ++ r'.checked, r.invoked ++ r'.invoked, r'.err⟩

/-- Flatten a parsed table into the `(section, key, value)` entries the
`load` loop visits, in iteration order. -/
def entriesOf (d : Dict2 V) : List (String × String × V) :=
  (d.map (fun p => p.2.map (fun q => (p.1, q.1, q.2)))).flatten

/-- `load()`: clear `_saved_config`, read the file (`FileNotFoundError` passed
over; `UnicodeError`/`OSError` logged; a JSON parse error is *not* in the
`except` clauses and propagates), then `set` each entry, logging and skipping
`InvalidValue` only. -/
def load (venv : Nat → V → Bool) (cenv : Nat → V → Option Nat)
    (st : ConfigState V) (file : FileState V) : OpResult V :=
  let st0 := { st with savedConfig := [] }
  match file with
  | .missing => loadEntries venv cenv st0 []
  | .unreadable => loadEntries venv cenv st0 []
  | .corrupt => ⟨st0, [], [], some .jsonDecodeError⟩
  | .json data =>
      loadEntries venv cenv { st0 with savedConfig := data } (entriesOf data)

/-- Python `==` on one dict level: same keys, equal values, order ignored. -/
def dict1Beq (a b : List (String × V)) : Bool :=
  (a.all fun p => decide (alistGet b p.1 = some p.2)) &&
    (b.all fun p => decide (alistGet a p.1 = some p.2))

/-- Python `==` on a section → key → value table: same sections, each pair of
inner dicts equal as dicts. -/
def dict2Beq (a b : Dict2 V) : Bool :=
  (a.all fun p => match alistGet b p.1 with
    | some q => dict1Beq p.2 q
    | none => false) &&
  (b.all fun p => match alistGet a p.1 with
    | some q => dict1Beq p.2 q
    | none => false)

/-- `save()`: when `_config == _saved_config` nothing happens, otherwise
`_config` is serialized over the config file. The module state — including
`_saved_config` — is never modified. -/
def save (st : ConfigState V) (file : FileState V) : ConfigState V × FileState V :=
  if dict2Beq st.config st.savedConfig then (st, file)
  else (st, .json st.config)

/-- A run of consecutive `set` calls with no exception handling: the loop body
of `reset`. Any exception aborts the remainder. -/
def runSets (venv : Nat → V → Bool) (cenv : Nat → V → Option Nat)
    (st : ConfigState V) : List (String × String × V) → OpResult V
  | [] => ⟨st, [], [], none⟩
  | (s, k, v) :: rest =>
      let r := set venv cenv st s k v
      match r.err with
      | some e => ⟨r.state, r.checked, r.invoked, some e⟩
      | none =>
          let r' := runSets venv cenv r.state rest
          ⟨r'.state, r.checked ++ r'.checked, r.invoked ++ r'.invoked, r'.err⟩

/-- `reset()`: `set` every registered key back to its default, in table order. -/
def reset (venv : Nat → V → Bool) (cenv : Nat → V → Option Nat)
    (st : ConfigState V) : OpResult V :=
  runSets venv cenv st (entriesOf st.defaultConfig)

/-- The module state before any key is registered: every table empty. -/
def initState (V : Type) : ConfigState V := ⟨[], [], [], [], []⟩

/-- One call into the store's public surface, for reasoning about reachable
states.  `loadOp` carries the file the call finds; `saveOp` carries it too
(`save` reads but never writes the module state). -/
inductive Op (V : Type) where
  | addKeyOp (s k : String) (d : V)
  | getOp (s k : String)
  | setOp (s k : String) (v : V)
  | connectOp (s k : String) (cb : Nat) (run_now : Bool)
  | disconnectOp (s k : String) (cb : Nat)
  | validatorOp (s k : String) (r : Nat)
  | loadOp (file : FileState V)
  | saveOp (file : FileState V)
  | resetOp
deriving DecidableEq

/-- The module state after one public call (exceptions propagate to the
caller but the state the call leaves behind is kept). -/
def applyOp (venv : Nat → V → Bool) (cenv : Nat → V → Option Nat)
    (st : ConfigState V) : Op V → ConfigState V
  | .addKeyOp s k d => add_key st s k d
  | .getOp _ _ => st
  | .setOp s k v => (set venv cenv st s k v).state
  | .connectOp s k cb rn => (connect cenv st s k cb rn).state
  | .disconnectOp s k cb => (disconnect st s k cb).state
  | .validatorOp s k r => addValidator st s k r
  | .loadOp f => (load venv cenv st f).state
  | .saveOp f => (save st f).1
  | .resetOp => (reset venv cenv st).state

/-- The module state after a sequence of public calls on a fresh store. -/
def runOps (venv : Nat → V → Bool) (cenv : Nat → V → Option Nat)
    (ops : List (Op V)) : ConfigState V :=
  ops.foldl (applyOp venv cenv) (initState V)

/-- States reachable by public calls in which `add_key` is only ever used to
register a (section, key) for the first time (the spec declares
re-registration undefined behaviour). -/
inductive ReachableNoRereg (venv : Nat → V → Bool) (cenv : Nat → V → Option Nat) :
    ConfigState V → Prop where
  | init : ReachableNoRereg venv cenv (initState V)
  | addKey {st} (s k : String) (d : V) : ReachableNoRereg venv cenv st →
      dictGet2 st.defaultConfig s k = none →
      ReachableNoRereg venv cenv (add_key st s k d)
  | setStep {st} (s k : String) (v : V) : ReachableNoRereg venv cenv st →
      ReachableNoRereg venv cenv (set venv cenv st s k v).state
  | connectStep {st} (s k : String) (cb : Nat) (rn : Bool) :
      ReachableNoRereg venv cenv st →
      ReachableNoRereg venv cenv (connect cenv st s k cb rn).state
  | disconnectStep {st} (s k : String) (cb : Nat) : ReachableNoRereg venv cenv st →
      ReachableNoRereg venv cenv (disconnect st s k cb).state
  | validatorStep {st} (s k : String) (r : Nat) : ReachableNoRereg venv cenv st →
      ReachableNoRereg venv cenv (addValidator st s k r)
  | loadStep {st} (f : FileState V) : ReachableNoRereg venv cenv st →
      ReachableNoRereg venv cenv (load venv cenv st f).state
  | resetStep {st} : ReachableNoRereg venv cenv st →
      ReachableNoRereg venv cenv (reset venv cenv st).state

/-- The §3 invariant: every entry of the override table differs from its
registered default. -/
def overridesDiffer (st : ConfigState V) : Prop :=
  ∀ s k v, dictGet2 st.config s k = some v → dictGet2 st.defaultConfig s k ≠ some v

/-- Every overridden key is a registered key. -/
def overridesRegistered (st : ConfigState V) : Prop :=
  ∀ s k v, dictGet2 st.config s k = some v → ∃ d, dictGet2 st.defaultConfig s k = some d

/-- The two-table invariant behind §3: overrides differ from their defaults,
and every override is registered. -/
def tablesWF (c dflt : Dict2 V) : Prop :=
  (∀ s k v, dictGet2 c s k = some v → dictGet2 dflt s k ≠ some v) ∧
  (∀ s k v, dictGet2 c s k = some v → ∃ d, dictGet2 dflt s k = some d)

/-- The invariant as a property of a module state. -/
def WF (st : ConfigState V) : Prop := tablesWF st.config st.defaultConfig

/-! ### Concrete environments and states for witnesses -/

/-- A validator environment that accepts every value. -/
def venvAll : Nat → Int → Bool := fun _ _ => true

/-- A validator environment in which every validator accepts exactly the
values below 5. -/
def venvLt5 : Nat → Int → Bool := fun _ v => decide (v < 5)

/-- A callback environment in which no callback ever raises. -/
def cenvOk : Nat → Int → Option Nat := fun _ _ => none

/-- A callback environment in which callback 7 raises exception 3. -/
def cenvRaise7 : Nat → Int → Option Nat := fun c _ => if c = 7 then some 3 else none

/-- A store with the single registered key `("a","x")`, default `0`. -/
def stAX : ConfigState Int := add_key (initState Int) "a" "x" 0

/-- `stAX` with validator 1 registered on `("a","x")`. -/
def stAXval : ConfigState Int := addValidator stAX "a" "x" 1

/-- `stAX` with callbacks 4 and 5 connected to `("a","x")` (no immediate run). -/
def stAXcb : ConfigState Int :=
  (connect cenvOk (connect cenvOk stAX "a" "x" 4 false).state "a" "x" 5 false).state

/-! ### Association-list lemmas -/

theorem alistGet_set_self {κ α : Type} [DecidableEq κ] (d : List (κ × α)) (k : κ) (v : α) :
    alistGet (alistSet d k v) k = some v := by
  induction d with
  | nil => simp [alistSet, alistGet]
  | cons p rest ih =>
      obtain ⟨k', v'⟩ := p
      by_cases h : k' = k
      · simp [alistSet, alistGet, h]
      · simp [alistSet, alistGet, h, ih]

theorem alistGet_set_ne {κ α : Type} [DecidableEq κ] (d : List (κ × α)) (k : κ) (v : α)
    (k₀ : κ) (h : k₀ ≠ k) : alistGet (alistSet d k v) k₀ = alistGet d k₀ := by
  have hkk : ¬(k = k₀) := fun hh => h hh.symm
  induction d with
  | nil => simp [alistSet, alistGet, hkk]
  | cons p rest ih =>
      obtain ⟨k', v'⟩ := p
      by_cases hk : k' = k
      · subst hk
        simp [alistSet, alistGet, hkk]
      · by_cases hk0 : k' = k₀ <;> simp [alistSet, alistGet, hk, hk0, h, ih]

theorem alistGet_del_self {κ α : Type} [DecidableEq κ] (d : List (κ × α)) (k : κ) :
    alistGet (alistDel d k) k = none := by
  induction d with
  | nil => simp [alistDel, alistGet]
  | cons p rest ih =>
      obtain ⟨k', v'⟩ := p
      by_cases h : k' = k <;> simp [alistDel, alistGet, h, ih]

theorem alistGet_del_ne {κ α : Type} [DecidableEq κ] (d : List (κ × α)) (k k₀ : κ)
    (h : k₀ ≠ k) : alistGet (alistDel d k) k₀ = alistGet d k₀ := by
  have hkk : ¬(k = k₀) := fun hh => h hh.symm
  induction d with
  | nil => simp [alistDel]
  | cons p rest ih =>
      obtain ⟨k', v'⟩ := p
      by_cases hk : k' = k
      · subst hk
        simp [alistDel, alistGet, hkk, ih]
      · by_cases hk0 : k' = k₀ <;> simp [alistDel, alistGet, hk, hk0, h, ih]

theorem alistSet_ne_nil {κ α : Type} [DecidableEq κ] (d : List (κ × α)) (k : κ) (v : α) :
    alistSet d k v ≠ [] := by
  cases d with
  | nil => simp [alistSet]
  | cons p rest =>
      obtain ⟨k', v'⟩ := p
      by_cases h : k' = k <;> simp [alistSet, h]

/-! ### Lookup behaviour of `configWrite` and `configDelete` -/

theorem dictGet2_configWrite_self (d : Dict2 V) (s k : String) (v : V) :
    dictGet2 (configWrite d s k v) s k = some v := by
  unfold configWrite dictGet2
  cases h : alistGet d s with
  | none => simp [alistGet_set_self, alistGet]
  | some sec => simp [alistGet_set_self]

theorem dictGet2_configWrite_ne (d : Dict2 V) (s k : String) (v : V) (s₀ k₀ : String)
    (h : s₀ ≠ s ∨ k₀ ≠ k) :
    dictGet2 (configWrite d s k v) s₀ k₀ = dictGet2 d s₀ k₀ := by
  unfold configWrite dictGet2
  by_cases hs : s₀ = s
  · subst hs
    rcases h with h | h
    · exact absurd rfl h
    · have hkk : ¬(k = k₀) := fun hh => h hh.symm
      cases hget : alistGet d s₀ with
      | none => simp [alistGet_set_self, alistGet, hkk]
      | some sec => simp [alistGet_set_self, alistGet_set_ne _ _ _ _ h]
  · cases hget : alistGet d s with
    | none => simp [alistGet_set_ne _ _ _ _ hs, hget]
    | some sec => simp [alistGet_set_ne _ _ _ _ hs, hget]

theorem dictGet2_configDelete_self (d : Dict2 V) (s : String) (sec : List (String × V))
    (k : String) : dictGet2 (configDelete d s sec k) s k = none := by
  unfold configDelete dictGet2
  by_cases h : alistDel sec k = []
  · simp [h, alistGet_del_self]
  · simp [h, alistGet_set_self, alistGet_del_self]

theorem dictGet2_configDelete_ne_key (d : Dict2 V) (s : String) (sec : List (String × V))
    (k k₀ : String) (h : k₀ ≠ k) :
    dictGet2 (configDelete d s sec k) s k₀ = alistGet sec k₀ := by
  unfold configDelete dictGet2
  by_cases hnil : alistDel sec k = []
  · have : alistGet sec k₀ = none := by
      rw [← alistGet_del_ne sec k k₀ h, hnil]
      simp [alistGet]
    simp [hnil, alistGet_del_self, this]
  · simp [hnil, alistGet_set_self, alistGet_del_ne sec k k₀ h]

theorem dictGet2_configDelete_ne_sec (d : Dict2 V) (s : String) (sec : List (String × V))
    (k : String) (s₀ k₀ : String) (h : s₀ ≠ s) :
    dictGet2 (configDelete d s sec k) s₀ k₀ = dictGet2 d s₀ k₀ := by
  unfold configDelete dictGet2
  by_cases hnil : alistDel sec k = []
  · simp [hnil, alistGet_del_ne d s s₀ h]
  · simp [hnil, alistGet_set_ne _ _ _ _ h]

theorem dictGet2_some_elim (d : Dict2 V) (s k : String) (v : V)
    (h : dictGet2 d s k = some v) :
    ∃ sec, alistGet d s = some sec ∧ alistGet sec k = some v := by
  unfold dictGet2 at h
  cases hs : alistGet d s with
  | none => rw [hs] at h; simp at h
  | some sec => rw [hs] at h; exact ⟨sec, rfl, h⟩

/-! ### The validator and callback loops -/

theorem runValidators_all_true (venv : Nat → V → Bool) (vs : List Nat) (v : V)
    (h : ∀ r ∈ vs, venv r v = true) :
    runValidators venv vs v = (vs.map (fun r => (r, v)), true) := by
  induction vs with
  | nil => simp [runValidators]
  | cons r rest ih =>
      have hr := h r (by simp)
      have hrest := ih (fun r' hr' => h r' (by simp [hr']))
      simp [runValidators, hr, hrest]

theorem runValidators_reject (venv : Nat → V → Bool) (vs : List Nat) (v : V)
    (h : ∃ r ∈ vs, venv r v = false) : (runValidators venv vs v).2 = false := by
  induction vs with
  | nil => simp at h
  | cons r rest ih =>
      by_cases hr : venv r v
      · have hrest : ∃ r' ∈ rest, venv r' v = false := by
          rcases h with ⟨r', hmem, hfalse⟩
          rcases List.mem_cons.mp hmem with rfl | hmem'
          · rw [hr] at hfalse; cases hfalse
          · exact ⟨r', hmem', hfalse⟩
        simp [runValidators, hr, ih hrest]
      · simp [runValidators, hr]

theorem runCallbacks_all_ok (cenv : Nat → V → Option Nat) (cbs : List Nat) (v : V)
    (h : ∀ c ∈ cbs, cenv c v = none) :
    runCallbacks cenv cbs v = (cbs.map (fun c => (c, v)), none) := by
  induction cbs with
  | nil => simp [runCallbacks]
  | cons c rest ih =>
      have hc := h c (by simp)
      have hrest := ih (fun c' hc' => h c' (by simp [hc']))
      simp [runCallbacks, hc, hrest]

/-! ### Branch characterizations of `set` -/

theorem set_getError (venv : Nat → V → Bool) (cenv : Nat → V → Option Nat)
    (st : ConfigState V) (s k : String) (v : V) (e : PyErr V)
    (h : get st s k = .error e) :
    set venv cenv st s k v = ⟨st, [], [], some e⟩ := by
  unfold set
  rw [h]

theorem set_noop (venv : Nat → V → Bool) (cenv : Nat → V → Option Nat)
    (st : ConfigState V) (s k : String) (v : V)
    (h : get st s k = .ok v) :
    set venv cenv st s k v = ⟨st, [], [], none⟩ := by
  unfold set
  rw [h]
  simp

theorem set_invalid (venv : Nat → V → Bool) (cenv : Nat → V → Option Nat)
    (st : ConfigState V) (s k : String) (v old : V)
    (hget : get st s k = .ok old) (hne : v ≠ old)
    (hrej : (runValidators venv ((alistGet st.validators (s, k)).getD []) v).2 = false) :
    set venv cenv st s k v =
      ⟨st, (runValidators venv ((alistGet st.validators (s, k)).getD []) v).1, [],
        some (.invalidValue k v)⟩ := by
  unfold set
  rw [hget]
  simp [hne, hrej]

theorem set_noDefault (venv : Nat → V → Bool) (cenv : Nat → V → Option Nat)
    (st : ConfigState V) (s k : String) (v old : V)
    (hget : get st s k = .ok old) (hne : v ≠ old)
    (hacc : (runValidators venv ((alistGet st.validators (s, k)).getD []) v).2 = true)
    (hd : dictGet2 st.defaultConfig s k = none) :
    set venv cenv st s k v =
      ⟨st, (runValidators venv ((alistGet st.validators (s, k)).getD []) v).1, [],
        some .keyNotFound⟩ := by
  unfold set
  rw [hget]
  simp [hne, hacc, hd]

theorem set_write (venv : Nat → V → Bool) (cenv : Nat → V → Option Nat)
    (st : ConfigState V) (s k : String) (v old d : V)
    (hget : get st s k = .ok old) (hne : v ≠ old)
    (hacc : (runValidators venv ((alistGet st.validators (s, k)).getD []) v).2 = true)
    (hd : dictGet2 st.defaultConfig s k = some d) (hvd : v ≠ d) :
    set venv cenv st s k v =
      ⟨{ st with config := configWrite st.config s k v },
        (runValidators venv ((alistGet st.validators (s, k)).getD []) v).1,
        (runCallbacks cenv ((alistGet st.callbacks (s, k)).getD []) v).1,
        (runCallbacks cenv ((alistGet st.callbacks (s, k)).getD []) v).2⟩ := by
  unfold set
  rw [hget]
  simp [hne, hacc, hd, hvd]

theorem set_delete (venv : Nat → V → Bool) (cenv : Nat → V → Option Nat)
    (st : ConfigState V) (s k : String) (v old : V) (sec : List (String × V))
    (hget : get st s k = .ok old) (hne : v ≠ old)
    (hacc : (runValidators venv ((alistGet st.validators (s, k)).getD []) v).2 = true)
    (hd : dictGet2 st.defaultConfig s k = some v)
    (hsec : alistGet st.config s = some sec) (hkey : (alistGet sec k).isSome = true) :
    set venv cenv st s k v =
      ⟨{ st with config := configDelete st.config s sec k },
        (runValidators venv ((alistGet st.validators (s, k)).getD []) v).1,
        (runCallbacks cenv ((alistGet st.callbacks (s, k)).getD []) v).1,
        (runCallbacks cenv ((alistGet st.callbacks (s, k)).getD []) v).2⟩ := by
  unfold set
  rw [hget]
  simp [hne, hacc, hd, hsec, hkey]

/-- `set` touches only `_config`: the other four module tables are intact in
every branch. -/
theorem set_state_frame (venv : Nat → V → Bool) (cenv : Nat → V → Option Nat)
    (st : ConfigState V) (s k : String) (v : V) :
    (set venv cenv st s k v).state.defaultConfig = st.defaultConfig ∧
    (set venv cenv st s k v).state.savedConfig = st.savedConfig ∧
    (set venv cenv st s k v).state.callbacks = st.callbacks ∧
    (set venv cenv st s k v).state.validators = st.validators := by
  unfold set
  repeat' split
  any_goals simp
  all_goals (split <;> simp)

/-- `get` reads only the override and default tables. -/
theorem get_eq_of_tables (st st' : ConfigState V) (hc : st'.config = st.config)
    (hd : st'.defaultConfig = st.defaultConfig) (s k : String) :
    get st' s k = get st s k := by
  unfold get dictGet2
  rw [hc, hd]

/-- When the effective value is not the default, it is an override. -/
theorem override_of_get (st : ConfigState V) (s k : String) (old d : V)
    (hget : get st s k = .ok old) (hd : dictGet2 st.defaultConfig s k = some d)
    (hne : old ≠ d) : dictGet2 st.config s k = some old := by
  unfold get at hget
  cases hov : dictGet2 st.config s k with
  | some w =>
      rw [hov] at hget
      cases hget
      rfl
  | none =>
      rw [hov, hd] at hget
      cases hget
      exact absurd rfl hne

/-- After an exception-free `set(section, key, value)`, `get(section, key)`
returns `value`. -/
theorem set_get_ok (venv : Nat → V → Bool) (cenv : Nat → V → Option Nat)
    (st : ConfigState V) (s k : String) (v : V)
    (h : (set venv cenv st s k v).err = none) :
    get (set venv cenv st s k v).state s k = .ok v := by
  cases hget : get st s k with
  | error e =>
      rw [set_getError venv cenv st s k v e hget] at h
      simp at h
  | ok old =>
      by_cases hne : v = old
      · subst hne
        rw [set_noop venv cenv st s k v hget]
        exact hget
      · by_cases hacc : (runValidators venv ((alistGet st.validators (s, k)).getD []) v).2 = true
        · cases hd : dictGet2 st.defaultConfig s k with
          | none =>
              rw [set_noDefault venv cenv st s k v old hget hne hacc hd] at h
              simp at h
          | some d =>
              by_cases hvd : v = d
              · subst hvd
                have hov : dictGet2 st.config s k = some old :=
                  override_of_get st s k old v hget hd (fun hh => hne hh.symm)
                obtain ⟨sec, hsec, hkey⟩ := dictGet2_some_elim st.config s k old hov
                rw [set_delete venv cenv st s k v old sec hget hne hacc hd hsec
                  (by rw [hkey]; rfl)]
                unfold get
                rw [dictGet2_configDelete_self]
                have : ({ st with config := configDelete st.config s sec k } :
                    ConfigState V).defaultConfig = st.defaultConfig := rfl
                rw [this, hd]
              · rw [set_write venv cenv st s k v old d hget hne hacc hd hvd]
                unfold get
                rw [dictGet2_configWrite_self]
        · rw [set_invalid venv cenv st s k v old hget hne
            (Bool.not_eq_true _ ▸ Bool.of_not_eq_true hacc)] at h
          simp at h

/-! ### Preservation of the override/default invariant -/

theorem tablesWF_write (c dflt : Dict2 V) (s k : String) (v d : V)
    (hd : dictGet2 dflt s k = some d) (hvd : v ≠ d) (h : tablesWF c dflt) :
    tablesWF (configWrite c s k v) dflt := by
  obtain ⟨h1, h2⟩ := h
  constructor
  · intro s₀ k₀ v₀ hov
    by_cases hsk : s₀ = s ∧ k₀ = k
    · obtain ⟨rfl, rfl⟩ := hsk
      rw [dictGet2_configWrite_self] at hov
      cases hov
      rw [hd]
      exact fun hc => hvd (Option.some.inj hc).symm
    · have hne : s₀ ≠ s ∨ k₀ ≠ k := by tauto
      rw [dictGet2_configWrite_ne c s k v s₀ k₀ hne] at hov
      exact h1 s₀ k₀ v₀ hov
  · intro s₀ k₀ v₀ hov
    by_cases hsk : s₀ = s ∧ k₀ = k
    · obtain ⟨rfl, rfl⟩ := hsk
      exact ⟨d, hd⟩
    · have hne : s₀ ≠ s ∨ k₀ ≠ k := by tauto
      rw [dictGet2_configWrite_ne c s k v s₀ k₀ hne] at hov
      exact h2 s₀ k₀ v₀ hov

theorem tablesWF_delete (c dflt : Dict2 V) (s : String) (sec : List (String × V))
    (k : String) (hsec : alistGet c s = some sec) (h : tablesWF c dflt) :
    tablesWF (configDelete c s sec k) dflt := by
  obtain ⟨h1, h2⟩ := h
  have key : ∀ s₀ k₀ v₀, dictGet2 (configDelete c s sec k) s₀ k₀ = some v₀ →
      dictGet2 c s₀ k₀ = some v₀ := by
    intro s₀ k₀ v₀ hov
    by_cases hs : s₀ = s
    · subst hs
      by_cases hk : k₀ = k
      · subst hk
        rw [dictGet2_configDelete_self] at hov
        simp at hov
      · rw [dictGet2_configDelete_ne_key c s₀ sec k k₀ hk] at hov
        unfold dictGet2
        rw [hsec]
        exact hov
    · rw [dictGet2_configDelete_ne_sec c s sec k s₀ k₀ hs] at hov
      exact hov
  exact ⟨fun s₀ k₀ v₀ hov => h1 s₀ k₀ v₀ (key s₀ k₀ v₀ hov),
    fun s₀ k₀ v₀ hov => h2 s₀ k₀ v₀ (key s₀ k₀ v₀ hov)⟩

theorem tablesWF_addKey (c dflt : Dict2 V) (s k : String) (d : V)
    (hfresh : dictGet2 dflt s k = none) (h : tablesWF c dflt) :
    tablesWF c (configWrite dflt s k d) := by
  obtain ⟨h1, h2⟩ := h
  constructor
  · intro s₀ k₀ v₀ hov
    by_cases hsk : s₀ = s ∧ k₀ = k
    · obtain ⟨rfl, rfl⟩ := hsk
      obtain ⟨d', hd'⟩ := h2 s₀ k₀ v₀ hov
      rw [hfresh] at hd'
      simp at hd'
    · have hne : s₀ ≠ s ∨ k₀ ≠ k := by tauto
      rw [dictGet2_configWrite_ne dflt s k d s₀ k₀ hne]
      exact h1 s₀ k₀ v₀ hov
  · intro s₀ k₀ v₀ hov
    by_cases hsk : s₀ = s ∧ k₀ = k
    · obtain ⟨rfl, rfl⟩ := hsk
      exact ⟨d, dictGet2_configWrite_self dflt _ _ d⟩
    · have hne : s₀ ≠ s ∨ k₀ ≠ k := by tauto
      rw [dictGet2_configWrite_ne dflt s k d s₀ k₀ hne]
      exact h2 s₀ k₀ v₀ hov

theorem WF_set (venv : Nat → V → Bool) (cenv : Nat → V → Option Nat)
    (st : ConfigState V) (s k : String) (v : V) (h : WF st) :
    WF (set venv cenv st s k v).state := by
  cases hget : get st s k with
  | error e =>
      rw [set_getError venv cenv st s k v e hget]
      exact h
  | ok old =>
      by_cases hne : v = old
      · subst hne
        rw [set_noop venv cenv st s k v hget]
        exact h
      · by_cases hacc : (runValidators venv ((alistGet st.validators (s, k)).getD []) v).2 = true
        · cases hd : dictGet2 st.defaultConfig s k with
          | none =>
              rw [set_noDefault venv cenv st s k v old hget hne hacc hd]
              exact h
          | some d =>
              by_cases hvd : v = d
              · subst hvd
                have hov := override_of_get st s k old v hget hd (fun hh => hne hh.symm)
                obtain ⟨sec, hsec, hkey⟩ := dictGet2_some_elim st.config s k old hov
                rw [set_delete venv cenv st s k v old sec hget hne hacc hd hsec
                  (by rw [hkey]; rfl)]
                exact tablesWF_delete st.config st.defaultConfig s sec k hsec h
              · rw [set_write venv cenv st s k v old d hget hne hacc hd hvd]
                exact tablesWF_write st.config st.defaultConfig s k v d hd hvd h
        · rw [set_invalid venv cenv st s k v old hget hne
            (Bool.not_eq_true _ ▸ Bool.of_not_eq_true hacc)]
          exact h

theorem WF_add_key (st : ConfigState V) (s k : String) (d : V)
    (hfresh : dictGet2 st.defaultConfig s k = none) (h : WF st) :
    WF (add_key st s k d) :=
  tablesWF_addKey st.config st.defaultConfig s k d hfresh h

theorem WF_connect (cenv : Nat → V → Option Nat) (st : ConfigState V)
    (s k : String) (cb : Nat) (rn : Bool) (h : WF st) :
    WF (connect cenv st s k cb rn).state := by
  simp only [connect]
  repeat' split
  all_goals exact h

theorem WF_disconnect (st : ConfigState V) (s k : String) (cb : Nat) (h : WF st) :
    WF (disconnect st s k cb).state := by
  simp only [disconnect]
  split
  all_goals exact h

theorem WF_loadEntries (venv : Nat → V → Bool) (cenv : Nat → V → Option Nat)
    (es : List (String × String × V)) :
    ∀ st : ConfigState V, WF st → WF (loadEntries venv cenv st es).state := by
  induction es with
  | nil => exact fun st h => h
  | cons e rest ih =>
      intro st h
      obtain ⟨s, k, v⟩ := e
      simp only [loadEntries]
      split
      · exact ih _ (WF_set venv cenv st s k v h)
      · exact WF_set venv cenv st s k v h
      · exact ih _ (WF_set venv cenv st s k v h)

theorem WF_load (venv : Nat → V → Bool) (cenv : Nat → V → Option Nat)
    (st : ConfigState V) (f : FileState V) (h : WF st) :
    WF (load venv cenv st f).state := by
  unfold load
  cases f with
  | missing => exact WF_loadEntries venv cenv [] _ h
  | unreadable => exact WF_loadEntries venv cenv [] _ h
  | corrupt => exact h
  | json data => exact WF_loadEntries venv cenv (entriesOf data) _ h

theorem WF_runSets (venv : Nat → V → Bool) (cenv : Nat → V → Option Nat)
    (es : List (String × String × V)) :
    ∀ st : ConfigState V, WF st → WF (runSets venv cenv st es).state := by
  induction es with
  | nil => exact fun st h => h
  | cons e rest ih =>
      intro st h
      obtain ⟨s, k, v⟩ := e
      simp only [runSets]
      split
      · exact WF_set venv cenv st s k v h
      · exact ih _ (WF_set venv cenv st s k v h)

theorem WF_reset (venv : Nat → V → Bool) (cenv : Nat → V → Option Nat)
    (st : ConfigState V) (h : WF st) : WF (reset venv cenv st).state :=
  WF_runSets venv cenv (entriesOf st.defaultConfig) st h

/-- The per-entry loop of `load` never touches `_saved_config`. -/
theorem loadEntries_savedConfig (venv : Nat → V → Bool) (cenv : Nat → V → Option Nat)
    (es : List (String × String × V)) :
    ∀ st : ConfigState V, (loadEntries venv cenv st es).state.savedConfig = st.savedConfig := by
  induction es with
  | nil => exact fun st => rfl
  | cons e rest ih =>
      intro st
      obtain ⟨s, k, v⟩ := e
      simp only [loadEntries]
      split
      · simp [ih, (set_state_frame venv cenv st s k v).2.1]
      · simp [(set_state_frame venv cenv st s k v).2.1]
      · simp [ih, (set_state_frame venv cenv st s k v).2.1]

theorem add_key_config (st : ConfigState V) (s k : String) (d : V) :
    (add_key st s k d).config = st.config := rfl

theorem add_key_defaultConfig (st : ConfigState V) (s k : String) (d : V) :
    (add_key st s k d).defaultConfig = configWrite st.defaultConfig s k d := rfl

/-- `connect` appends to the listener registry and touches nothing else,
whatever the branch taken afterwards. -/
theorem connect_state_eq (cenv : Nat → V → Option Nat) (st : ConfigState V)
    (s k : String) (cb : Nat) (rn : Bool) :
    (connect cenv st s k cb rn).state = connectAppend st s k cb := by
  simp only [connect]
  repeat' split
  all_goals rfl

theorem disconnect_mem (st : ConfigState V) (s k : String) (cb : Nat)
    (h : cb ∈ (alistGet st.callbacks (s, k)).getD []) :
    disconnect st s k cb =
      ⟨{ st with callbacks :=
                   alistSet st.callbacks (s, k)
                     (removeFirst ((alistGet st.callbacks (s, k)).getD []) cb) },
        [], [], none⟩ := by
  simp only [disconnect]
  rw [if_pos h]

theorem disconnect_not_mem (st : ConfigState V) (s k : String) (cb : Nat)
    (h : cb ∉ (alistGet st.callbacks (s, k)).getD []) :
    disconnect st s k cb = ⟨st, [], [], some .notFound⟩ := by
  simp only [disconnect]
  rw [if_neg h]

/-- Whenever `set` reaches a mutation branch (write or delete), the callback
loop determines the invocation trace and the propagated exception. -/
theorem set_mutation_invoked (venv : Nat → V → Bool) (cenv : Nat → V → Option Nat)
    (st : ConfigState V) (s k : String) (v old d : V)
    (hget : get st s k = .ok old) (hne : v ≠ old)
    (hacc : (runValidators venv ((alistGet st.validators (s, k)).getD []) v).2 = true)
    (hd : dictGet2 st.defaultConfig s k = some d) :
    (set venv cenv st s k v).invoked =
      (runCallbacks cenv ((alistGet st.callbacks (s, k)).getD []) v).1 ∧
    (set venv cenv st s k v).err =
      (runCallbacks cenv ((alistGet st.callbacks (s, k)).getD []) v).2 := by
  by_cases hvd : v = d
  · subst hvd
    have hov := override_of_get st s k old v hget hd (fun hh => hne hh.symm)
    obtain ⟨sec, hsec, hkey⟩ := dictGet2_some_elim st.config s k old hov
    rw [set_delete venv cenv st s k v old sec hget hne hacc hd hsec (by rw [hkey]; rfl)]
    exact ⟨rfl, rfl⟩
  · rw [set_write venv cenv st s k v old d hget hne hacc hd hvd]
    exact ⟨rfl, rfl⟩

theorem count_removeFirst {α : Type} [DecidableEq α] (l : List α) (a : α) (h : a ∈ l) :
    (removeFirst l a).count a = l.count a - 1 := by
  induction l with
  | nil => simp at h
  | cons x rest ih =>
      by_cases hx : x = a
      · subst hx
        simp [removeFirst, List.count_cons]
      · have hmem : a ∈ rest := by
          rcases List.mem_cons.mp h with rfl | hm
          · exact absurd rfl hx
          · exact hm
        have hcnt : 0 < rest.count a := List.count_pos_iff.mpr hmem
        simp only [removeFirst, if_neg hx]
        rw [List.count_cons, List.count_cons, ih hmem]
        have hax : ¬(a = x) := fun hh => hx hh.symm
        simp [hax]
        omega

theorem not_mem_removeFirst_of_count_one {α : Type} [DecidableEq α] (l : List α) (a : α)
    (hmem : a ∈ l) (h : l.count a = 1) : a ∉ removeFirst l a := by
  intro hin
  have := count_removeFirst l a hmem
  rw [h] at this
  have hz : (removeFirst l a).count a = 0 := this
  exact absurd (List.count_pos_iff.mpr hin) (by omega)

theorem mem_map_pair {l : List Nat} {c : Nat} {v w : V} :
    (c, v) ∈ l.map (fun c' => (c', w)) ↔ c ∈ l ∧ v = w := by
  constructor
  · intro h
    obtain ⟨c', hc', heq⟩ := List.mem_map.mp h
    cases heq
    exact ⟨hc', rfl⟩
  · rintro ⟨h, rfl⟩
    exact List.mem_map.mpr ⟨c, h, rfl⟩

theorem WF_reachable (venv : Nat → V → Bool) (cenv : Nat → V → Option Nat)
    (st : ConfigState V) (h : ReachableNoRereg venv cenv st) : WF st := by
  induction h with
  | init =>
      exact ⟨fun s k v hov => by simp [dictGet2, alistGet, initState] at hov,
        fun s k v hov => by simp [dictGet2, alistGet, initState] at hov⟩
  | addKey s k d _ hfresh ih => exact WF_add_key _ s k d hfresh ih
  | setStep s k v _ ih => exact WF_set venv cenv _ s k v ih
  | connectStep s k cb rn _ ih => exact WF_connect cenv _ s k cb rn ih
  | disconnectStep s k cb _ ih => exact WF_disconnect _ s k cb ih
  | validatorStep s k r _ ih => exact ih
  | loadStep f _ ih => exact WF_load venv cenv _ f ih
  | resetStep _ ih => exact WF_reset venv cenv _ ih

theorem get_of_override (st : ConfigState V) (s k : String) (v : V)
    (hov : dictGet2 st.config s k = some v) : get st s k = .ok v := by
  unfold get
  rw [hov]

theorem get_of_default (st : ConfigState V) (s k : String) (d : V)
    (hov : dictGet2 st.config s k = none) (hd : dictGet2 st.defaultConfig s k = some d) :
    get st s k = .ok d := by
  unfold get
  rw [hov, hd]

theorem get_of_neither (st : ConfigState V) (s k : String)
    (hov : dictGet2 st.config s k = none) (hd : dictGet2 st.defaultConfig s k = none) :
    get st s k = .error .keyNotFound := by
  unfold get
  rw [hov, hd]

/-- After a `set` of a valid value that differs from the default, the
override table holds exactly that value at the key (whether the call mutated
or was already a no-op on an existing override). -/
theorem set_override_result (venv : Nat → V → Bool) (cenv : Nat → V → Option Nat)
    (st : ConfigState V) (s k : String) (v d : V)
    (hd : dictGet2 st.defaultConfig s k = some d) (hvd : v ≠ d)
    (hvv : ∀ r ∈ (alistGet st.validators (s, k)).getD [], venv r v = true) :
    dictGet2 (set venv cenv st s k v).state.config s k = some v := by
  have hacc : (runValidators venv ((alistGet st.validators (s, k)).getD []) v).2 = true := by
    rw [runValidators_all_true venv _ v hvv]
  cases hov : dictGet2 st.config s k with
  | some w =>
      have hget : get st s k = .ok w := get_of_override st s k w hov
      by_cases hvw : v = w
      · subst hvw
        rw [set_noop venv cenv st s k v hget]
        exact hov
      · rw [set_write venv cenv st s k v w d hget hvw hacc hd hvd]
        exact dictGet2_configWrite_self st.config s k v
  | none =>
      have hget : get st s k = .ok d := get_of_default st s k d hov hd
      rw [set_write venv cenv st s k v d d hget hvd hacc hd hvd]
      exact dictGet2_configWrite_self st.config s k v

/-! ## Claims -/

/-- C1 counterexample: with one registered key and a config file that is
readable but not valid JSON, `load` propagates the parse error to its caller
(`json.JSONDecodeError` is a `ValueError`, not among the caught
`FileNotFoundError`/`UnicodeError`/`OSError`), contradicting the claim that a
corrupt file is logged and treated as empty without raising. -/
theorem config_c1_counterexample :
    (load venvAll cenvOk stAX .corrupt).err = some .jsonDecodeError := rfl

/-- C1 (amended): a missing file is passed over and an unreadable file (I/O
error or Unicode decoding error) is logged; in both cases the baseline is
cleared, nothing is raised, and every registered key keeps its default when
no overrides were in memory.  A file that reads fine but is not valid JSON,
however, makes `load` raise the parse error to its caller with the baseline
left cleared. -/
theorem config_c1 (venv : Nat → V → Bool) (cenv : Nat → V → Option Nat)
    (st : ConfigState V) :
    load venv cenv st .missing = ⟨{ st with savedConfig := [] }, [], [], none⟩ ∧
    load venv cenv st .unreadable = ⟨{ st with savedConfig := [] }, [], [], none⟩ ∧
    load venv cenv st .corrupt =
      ⟨{ st with savedConfig := [] }, [], [], some .jsonDecodeError⟩ ∧
    (st.config = [] → ∀ s k d, dictGet2 st.defaultConfig s k = some d →
      get (load venv cenv st .unreadable).state s k = .ok d) := by
  refine ⟨rfl, rfl, rfl, fun hcfg s k d hd => ?_⟩
  show get { st with savedConfig := ([] : Dict2 V) } s k = .ok d
  rw [get_eq_of_tables st { st with savedConfig := ([] : Dict2 V) } rfl rfl s k]
  have hnone : dictGet2 st.config s k = none := by rw [hcfg]; rfl
  unfold get
  rw [hnone, hd]

/-- C1 witness: on a store with key `("a","x")` defaulted to `0` and an
unreadable file, `load` leaves `get` returning the default. -/
theorem config_c1_witness :
    get (load venvAll cenvOk stAX .unreadable).state "a" "x" = .ok 0 :=
  (config_c1 venvAll cenvOk stAX).2.2.2 rfl "a" "x" 0 rfl

/-- C2 counterexample: key `("a","x")` defaults to `0` and the file holds the
entry `0` for it.  After `load`, the override table resulting from filtering
is empty while the baseline holds the raw entry, so the baseline is *not* the
override table that resulted from applying the persisted entries. -/
theorem config_c2_counterexample :
    (load venvAll cenvOk stAX (.json [("a", [("x", 0)])])).state.config = [] ∧
    (load venvAll cenvOk stAX (.json [("a", [("x", 0)])])).state.savedConfig
      = [("a", [("x", 0)])] ∧
    (load venvAll cenvOk stAX (.json [("a", [("x", 0)])])).state.savedConfig ≠
      (load venvAll cenvOk stAX (.json [("a", [("x", 0)])])).state.config := by
  refine ⟨rfl, rfl, ?_⟩
  decide

/-- C2 (amended): the baseline `_saved_config` is exactly the raw table read
from the file — before validator filtering and default filtering — and is
empty when the file is missing, unreadable or corrupt; `save` never modifies
the module state, so the baseline stays whatever the last `load` read. -/
theorem config_c2 (venv : Nat → V → Bool) (cenv : Nat → V → Option Nat)
    (st : ConfigState V) (data : Dict2 V) (f : FileState V) :
    (load venv cenv st (.json data)).state.savedConfig = data ∧
    (load venv cenv st .missing).state.savedConfig = [] ∧
    (load venv cenv st .unreadable).state.savedConfig = [] ∧
    (load venv cenv st .corrupt).state.savedConfig = [] ∧
    (save st f).1 = st := by
  refine ⟨?_, rfl, rfl, rfl, ?_⟩
  · show (loadEntries venv cenv { st with savedConfig := data }
      (entriesOf data)).state.savedConfig = data
    rw [loadEntries_savedConfig]
  · unfold save
    split <;> rfl

/-- C7: `save` writes nothing at all when the override table equals the
baseline under Python dict equality; it never changes the module state; and a
second consecutive `save` (no intervening `set`) leaves the file contents
identical. -/
theorem config_c7 (st : ConfigState V) (f : FileState V) :
    (dict2Beq st.config st.savedConfig = true → save st f = (st, f)) ∧
    (save st f).1 = st ∧
    (save st ((save st f).2)).2 = (save st f).2 := by
  unfold save
  by_cases h : dict2Beq st.config st.savedConfig <;> simp [h]

/-- C7 witness: on the fresh one-key store (no overrides, empty baseline)
`save` is the identity on the file. -/
theorem config_c7_witness :
    save stAX FileState.missing = (stAX, FileState.missing) ∧
    (save stAX FileState.missing).1 = stAX :=
  ⟨(config_c7 stAX FileState.missing).1 rfl, (config_c7 stAX FileState.missing).2.1⟩

/-- C3: when some registered validator rejects a value that differs from the
current effective value, `set` raises `InvalidValue`, leaves the whole store
unmodified, invokes no listener, and `get` keeps returning what it returned
before. -/
theorem config_c3 (venv : Nat → V → Bool) (cenv : Nat → V → Option Nat)
    (st : ConfigState V) (s k : String) (v old : V)
    (hget : get st s k = .ok old) (hne : v ≠ old)
    (hrej : ∃ r ∈ (alistGet st.validators (s, k)).getD [], venv r v = false) :
    set venv cenv st s k v =
      ⟨st, (runValidators venv ((alistGet st.validators (s, k)).getD []) v).1, [],
        some (.invalidValue k v)⟩ ∧
    get (set venv cenv st s k v).state s k = .ok old := by
  have h2 := runValidators_reject venv _ v hrej
  have h1 := set_invalid venv cenv st s k v old hget hne h2
  exact ⟨h1, by rw [h1]; exact hget⟩

/-- C3 witness: validator 1 (accepting values below 5) rejects `5` for
`("a","x")`; `set` fails with `InvalidValue` and the store is untouched. -/
theorem config_c3_witness :
    set venvLt5 cenvOk stAXval "a" "x" 5 =
      ⟨stAXval, [(1, 5)], [], some (.invalidValue "x" 5)⟩ ∧
    get (set venvLt5 cenvOk stAXval "a" "x" 5).state "a" "x" = .ok 0 :=
  config_c3 venvLt5 cenvOk stAXval "a" "x" 5 0 rfl (by decide)
    ⟨1, by decide, rfl⟩

/-- C4: `set` with a value equal to the current effective value is a
complete no-op — no validator call, no listener invocation, no state change,
no exception — and a second `set` of a value just set successfully is such a
no-op, so listeners fire at most once for two consecutive identical sets. -/
theorem config_c4 (venv : Nat → V → Bool) (cenv : Nat → V → Option Nat)
    (st : ConfigState V) (s k : String) (v : V)
    (hget : get st s k = .ok v) :
    set venv cenv st s k v = ⟨st, [], [], none⟩ ∧
    (∀ w, (set venv cenv st s k w).err = none →
      set venv cenv (set venv cenv st s k w).state s k w =
        ⟨(set venv cenv st s k w).state, [], [], none⟩) :=
  ⟨set_noop venv cenv st s k v hget,
    fun w hw => set_noop venv cenv _ s k w (set_get_ok venv cenv st s k w hw)⟩

/-- C4 witness: setting the default `0` again is a no-op, and repeating a
successful `set` of `3` is a no-op the second time. -/
theorem config_c4_witness :
    set venvAll cenvOk stAX "a" "x" 0 = ⟨stAX, [], [], none⟩ ∧
    set venvAll cenvOk (set venvAll cenvOk stAX "a" "x" 3).state "a" "x" 3 =
      ⟨(set venvAll cenvOk stAX "a" "x" 3).state, [], [], none⟩ :=
  ⟨(config_c4 venvAll cenvOk stAX "a" "x" 0 rfl).1,
    (config_c4 venvAll cenvOk stAX "a" "x" 0 rfl).2 3 rfl⟩

/-- C6: `get` returns the override when one is present and the default
otherwise; immediately after `add_key` of an unoverridden key it returns the
new default; after an exception-free `set` it returns the value just set; and
when neither table has an entry it fails with `KeyError` (spec:
`KeyNotFound`). -/
theorem config_c6 :
    (∀ (st : ConfigState V) s k v, dictGet2 st.config s k = some v →
      get st s k = .ok v) ∧
    (∀ (st : ConfigState V) s k d, dictGet2 st.config s k = none →
      dictGet2 st.defaultConfig s k = some d → get st s k = .ok d) ∧
    (∀ (st : ConfigState V) s k, dictGet2 st.config s k = none →
      dictGet2 st.defaultConfig s k = none → get st s k = .error .keyNotFound) ∧
    (∀ (st : ConfigState V) s k d, dictGet2 st.config s k = none →
      get (add_key st s k d) s k = .ok d) ∧
    (∀ (venv : Nat → V → Bool) (cenv : Nat → V → Option Nat) (st : ConfigState V) s k v,
      (set venv cenv st s k v).err = none →
      get (set venv cenv st s k v).state s k = .ok v) := by
  refine ⟨fun st s k v hov => ?_, fun st s k d hov hd => ?_, fun st s k hov hd => ?_,
    fun st s k d hov => ?_, fun venv cenv st s k v h => set_get_ok venv cenv st s k v h⟩
  · unfold get
    rw [hov]
  · unfold get
    rw [hov, hd]
  · unfold get
    rw [hov, hd]
  · unfold get
    rw [add_key_config st s k d, hov, add_key_defaultConfig st s k d,
      dictGet2_configWrite_self]

/-- C6 witness: override wins, default backs up, fresh registration yields
the default, a successful set is visible, and an unregistered key fails. -/
theorem config_c6_witness :
    get (set venvAll cenvOk stAX "a" "x" 1).state "a" "x" = .ok 1 ∧
    get stAX "a" "x" = .ok 0 ∧
    get (initState Int) "a" "x" = .error .keyNotFound ∧
    get (add_key (initState Int) "b" "y" 7) "b" "y" = .ok 7 ∧
    get (set venvAll cenvOk stAX "a" "x" 2).state "a" "x" = .ok 2 :=
  ⟨(config_c6 (V := Int)).1 _ "a" "x" 1 rfl,
    (config_c6 (V := Int)).2.1 stAX "a" "x" 0 rfl rfl,
    (config_c6 (V := Int)).2.2.1 (initState Int) "a" "x" rfl rfl,
    (config_c6 (V := Int)).2.2.2.1 (initState Int) "b" "y" 7 rfl,
    (config_c6 (V := Int)).2.2.2.2 venvAll cenvOk stAX "a" "x" 2 rfl⟩

/-- C5 counterexample: register `("a","x")` with default 0, override it to 1,
then re-register the same key with default 1.  The resulting reachable state
has override `1` equal to its default `1`, so over unrestricted operation
sequences the claimed invariant fails. -/
theorem config_c5_counterexample :
    ¬ overridesDiffer (runOps venvAll cenvOk
      [.addKeyOp "a" "x" 0, .setOp "a" "x" 1, .addKeyOp "a" "x" 1]) := by
  intro h
  exact h "a" "x" 1 rfl rfl

/-- C5 (amended): over operation sequences in which `add_key` is only used
to register a (section, key) for the first time — the spec declares
re-registration undefined behaviour — every reachable state keeps each
override entry different from its registered default; and a `set` of a valid
non-default value followed by a `set` of the default restores
`get = default`, removes the override entry, and leaves no empty section for
that section behind. -/
theorem config_c5 :
    (∀ (venv : Nat → V → Bool) (cenv : Nat → V → Option Nat) (st : ConfigState V),
      ReachableNoRereg venv cenv st → overridesDiffer st) ∧
    (∀ (venv : Nat → V → Bool) (cenv : Nat → V → Option Nat) (st : ConfigState V)
      (s k : String) (v d : V),
      dictGet2 st.defaultConfig s k = some d → v ≠ d →
      (∀ r ∈ (alistGet st.validators (s, k)).getD [], venv r v = true) →
      (∀ r ∈ (alistGet st.validators (s, k)).getD [], venv r d = true) →
      get (set venv cenv (set venv cenv st s k v).state s k d).state s k = .ok d ∧
      dictGet2 (set venv cenv (set venv cenv st s k v).state s k d).state.config s k
        = none ∧
      (∀ sec, alistGet
        (set venv cenv (set venv cenv st s k v).state s k d).state.config s = some sec →
        sec ≠ [])) := by
  constructor
  · exact fun venv cenv st h => (WF_reachable venv cenv st h).1
  · intro venv cenv st s k v d hd hvd hvv hdv
    have hfr₁ := set_state_frame venv cenv st s k v
    have hA : dictGet2 (set venv cenv st s k v).state.config s k = some v :=
      set_override_result venv cenv st s k v d hd hvd hvv
    obtain ⟨sec₁, hsec₁, hkey₁⟩ := dictGet2_some_elim _ s k v hA
    have hget₁ : get (set venv cenv st s k v).state s k = .ok v :=
      get_of_override _ s k v hA
    have hd₁ : dictGet2 (set venv cenv st s k v).state.defaultConfig s k = some d := by
      rw [hfr₁.1]
      exact hd
    have hval₁ : (alistGet (set venv cenv st s k v).state.validators (s, k)).getD [] =
        (alistGet st.validators (s, k)).getD [] := by
      rw [hfr₁.2.2.2]
    have hacc₁ : (runValidators venv
        ((alistGet (set venv cenv st s k v).state.validators (s, k)).getD []) d).2
          = true := by
      rw [hval₁, runValidators_all_true venv _ d hdv]
    have hdvne : d ≠ v := fun hh => hvd hh.symm
    have h2 := set_delete venv cenv (set venv cenv st s k v).state s k d v sec₁
      hget₁ hdvne hacc₁ hd₁ hsec₁ (by rw [hkey₁]; rfl)
    have hstate : (set venv cenv (set venv cenv st s k v).state s k d).state =
        { (set venv cenv st s k v).state with
            config := configDelete (set venv cenv st s k v).state.config s sec₁ k } := by
      rw [h2]
    refine ⟨?_, ?_, ?_⟩
    · rw [hstate]
      exact get_of_default _ s k d
        (dictGet2_configDelete_self (set venv cenv st s k v).state.config s sec₁ k) hd₁
    · rw [hstate]
      exact dictGet2_configDelete_self (set venv cenv st s k v).state.config s sec₁ k
    · intro sec hsec
      rw [hstate] at hsec
      have hsec' : alistGet
          (configDelete (set venv cenv st s k v).state.config s sec₁ k) s = some sec :=
        hsec
      simp only [configDelete] at hsec'
      by_cases hnil : alistDel sec₁ k = []
      · rw [if_pos hnil, alistGet_del_self] at hsec'
        cases hsec'
      · rw [if_neg hnil, alistGet_set_self] at hsec'
        cases hsec'
        exact hnil

/-- C5 witness: the empty initial store satisfies the invariant, and on the
one-key store the 1-then-0 round trip restores the default and removes the
entry. -/
theorem config_c5_witness :
    overridesDiffer (initState Int) ∧
    (get (set venvAll cenvOk (set venvAll cenvOk stAX "a" "x" 1).state "a" "x" 0).state
        "a" "x" = .ok 0 ∧
      dictGet2 (set venvAll cenvOk
        (set venvAll cenvOk stAX "a" "x" 1).state "a" "x" 0).state.config "a" "x"
        = none ∧
      (∀ sec, alistGet (set venvAll cenvOk
        (set venvAll cenvOk stAX "a" "x" 1).state "a" "x" 0).state.config "a" = some sec →
        sec ≠ [])) :=
  ⟨(config_c5 (V := Int)).1 venvAll cenvOk (initState Int) ReachableNoRereg.init,
    (config_c5 (V := Int)).2 venvAll cenvOk stAX "a" "x" 1 0 rfl (by decide)
      (by decide) (by decide)⟩

/-- C8: after a successful mutation exactly the listeners registered for the
key run, in registration order, each receiving the new value as sole
argument; `disconnect` removes the first occurrence of a callback, after
which a subsequent `set` does not invoke that occurrence (a
uniquely-registered callback is not invoked at all); `disconnect` of a
callback that is not registered fails with the `ValueError` of `list.remove`
(spec: `NotFound`). -/
theorem config_c8 (venv : Nat → V → Bool) (cenv : Nat → V → Option Nat)
    (st : ConfigState V) (s k : String) (v old d : V) (cb : Nat) :
    (get st s k = .ok old → v ≠ old →
      (∀ r ∈ (alistGet st.validators (s, k)).getD [], venv r v = true) →
      dictGet2 st.defaultConfig s k = some d →
      (∀ c ∈ (alistGet st.callbacks (s, k)).getD [], cenv c v = none) →
      (set venv cenv st s k v).invoked =
        ((alistGet st.callbacks (s, k)).getD []).map (fun c => (c, v)) ∧
      (set venv cenv st s k v).err = none) ∧
    (cb ∈ (alistGet st.callbacks (s, k)).getD [] →
      (disconnect st s k cb).err = none ∧
      (alistGet (disconnect st s k cb).state.callbacks (s, k)).getD [] =
        removeFirst ((alistGet st.callbacks (s, k)).getD []) cb ∧
      (((alistGet st.callbacks (s, k)).getD []).count cb = 1 →
        get st s k = .ok old → v ≠ old →
        (∀ r ∈ (alistGet st.validators (s, k)).getD [], venv r v = true) →
        dictGet2 st.defaultConfig s k = some d →
        (∀ c, cenv c v = none) →
        (cb, v) ∉ (set venv cenv (disconnect st s k cb).state s k v).invoked)) ∧
    (∀ cb₀, cb₀ ∉ (alistGet st.callbacks (s, k)).getD [] →
      disconnect st s k cb₀ = ⟨st, [], [], some .notFound⟩) := by
  refine ⟨fun hget hne hvv hd hcb => ?_, fun hmem => ?_,
    fun cb₀ h => disconnect_not_mem st s k cb₀ h⟩
  · have hacc : (runValidators venv ((alistGet st.validators (s, k)).getD []) v).2
        = true := by
      rw [runValidators_all_true venv _ v hvv]
    have hmut := set_mutation_invoked venv cenv st s k v old d hget hne hacc hd
    have hrc := runCallbacks_all_ok cenv _ v hcb
    constructor
    · rw [hmut.1, hrc]
    · rw [hmut.2, hrc]
  · have hdis := disconnect_mem st s k cb hmem
    have hstd : (disconnect st s k cb).state =
        { st with callbacks :=
                    alistSet st.callbacks (s, k)
                      (removeFirst ((alistGet st.callbacks (s, k)).getD []) cb) } := by
      rw [hdis]
    have hcbs' : (alistGet (disconnect st s k cb).state.callbacks (s, k)).getD [] =
        removeFirst ((alistGet st.callbacks (s, k)).getD []) cb := by
      rw [hstd]
      show (alistGet (alistSet st.callbacks (s, k)
        (removeFirst ((alistGet st.callbacks (s, k)).getD []) cb)) (s, k)).getD [] = _
      rw [alistGet_set_self]
      rfl
    refine ⟨by rw [hdis], hcbs', fun hcount hget hne hvv hd hcenv => ?_⟩
    have hget' : get (disconnect st s k cb).state s k = .ok old := by
      rw [hstd]
      exact hget
    have hval' : (alistGet (disconnect st s k cb).state.validators (s, k)).getD [] =
        (alistGet st.validators (s, k)).getD [] := by
      rw [hstd]
    have hacc' : (runValidators venv
        ((alistGet (disconnect st s k cb).state.validators (s, k)).getD []) v).2
          = true := by
      rw [hval', runValidators_all_true venv _ v hvv]
    have hd' : dictGet2 (disconnect st s k cb).state.defaultConfig s k = some d := by
      rw [hstd]
      exact hd
    have hmut := set_mutation_invoked venv cenv (disconnect st s k cb).state s k v old d
      hget' hne hacc' hd'
    rw [hmut.1, hcbs', runCallbacks_all_ok cenv _ v (fun c _ => hcenv c)]
    intro hin
    obtain ⟨hmem', -⟩ := mem_map_pair.mp hin
    exact not_mem_removeFirst_of_count_one _ cb hmem hcount hmem'

/-- C8 witness: with listeners 4 then 5 on `("a","x")`, a set to `2` invokes
`[(4,2),(5,2)]` in order; disconnecting 4 leaves `[5]` and a fresh set no
longer invokes 4; disconnecting the unregistered 9 raises. -/
theorem config_c8_witness :
    (set venvAll cenvOk stAXcb "a" "x" 2).invoked = [(4, 2), (5, 2)] ∧
    (set venvAll cenvOk stAXcb "a" "x" 2).err = none ∧
    (disconnect stAXcb "a" "x" 4).err = none ∧
    (alistGet (disconnect stAXcb "a" "x" 4).state.callbacks ("a", "x")).getD [] = [5] ∧
    ((4 : Nat), (2 : Int)) ∉
      (set venvAll cenvOk (disconnect stAXcb "a" "x" 4).state "a" "x" 2).invoked ∧
    disconnect stAXcb "a" "x" 9 = ⟨stAXcb, [], [], some .notFound⟩ := by
  have h := config_c8 venvAll cenvOk stAXcb "a" "x" 2 0 0 4
  exact ⟨(h.1 rfl (by decide) (by decide) rfl (by decide)).1,
    (h.1 rfl (by decide) (by decide) rfl (by decide)).2,
    (h.2.1 (by decide)).1,
    (h.2.1 (by decide)).2.1,
    (h.2.1 (by decide)).2.2 (by decide) rfl (by decide) (by decide) rfl (fun c => rfl),
    h.2.2 9 (by decide)⟩

/-- When the first entry's `set` raises anything but `InvalidValue` without
mutating, the `load` loop stops there and re-raises. -/
theorem loadEntries_head_error (venv : Nat → V → Bool) (cenv : Nat → V → Option Nat)
    (st : ConfigState V) (s k : String) (v : V) (es : List (String × String × V))
    (e : PyErr V)
    (hset : set venv cenv st s k v = ⟨st, [], [], some e⟩)
    (hne : ∀ k₀ v₀, e ≠ .invalidValue k₀ v₀) :
    loadEntries venv cenv st ((s, k, v) :: es) = ⟨st, [], [], some e⟩ := by
  cases e with
  | invalidValue k₀ v₀ => exact absurd rfl (hne k₀ v₀)
  | keyNotFound => simp [loadEntries, hset]
  | notFound => simp [loadEntries, hset]
  | jsonDecodeError => simp [loadEntries, hset]
  | callbackExc e₀ => simp [loadEntries, hset]

theorem entriesOf_cons_cons (s k : String) (v : V) (sub : List (String × V))
    (rest : Dict2 V) :
    entriesOf ((s, (k, v) :: sub) :: rest) =
      (s, k, v) :: (sub.map (fun q => (s, q.1, q.2)) ++ entriesOf rest) := by
  simp [entriesOf]

/-- C9: a parsed config file whose first entry names an unregistered
(section, key) makes `load` propagate `KeyError` (spec: `KeyNotFound`) out of
the per-entry `set` — only `InvalidValue` is in the `except` clause — so the
remaining entries are never applied; by contrast an entry rejected by a
validator on a registered key is logged, skipped, and the load completes. -/
theorem config_c9 (venv : Nat → V → Bool) (cenv : Nat → V → Option Nat)
    (st : ConfigState V) (s k : String) (v : V) (sub : List (String × V))
    (rest : Dict2 V) :
    (dictGet2 st.config s k = none → dictGet2 st.defaultConfig s k = none →
      load venv cenv st (.json ((s, (k, v) :: sub) :: rest)) =
        ⟨{ st with savedConfig := (s, (k, v) :: sub) :: rest }, [], [],
          some .keyNotFound⟩) ∧
    (∀ (st₀ : ConfigState V) (s₀ k₀ : String) (v₀ old : V),
      get st₀ s₀ k₀ = .ok old → v₀ ≠ old →
      (∃ r ∈ (alistGet st₀.validators (s₀, k₀)).getD [], venv r v₀ = false) →
      (load venv cenv st₀ (.json [(s₀, [(k₀, v₀)])])).err = none ∧
      (load venv cenv st₀ (.json [(s₀, [(k₀, v₀)])])).state =
        { st₀ with savedConfig := [(s₀, [(k₀, v₀)])] }) := by
  constructor
  · intro hc hd
    have hgetErr : get { st with savedConfig := (s, (k, v) :: sub) :: rest } s k =
        .error .keyNotFound :=
      get_of_neither _ s k hc hd
    have hset := set_getError venv cenv
      { st with savedConfig := (s, (k, v) :: sub) :: rest } s k v .keyNotFound hgetErr
    have habort := loadEntries_head_error venv cenv
      { st with savedConfig := (s, (k, v) :: sub) :: rest } s k v
      (sub.map (fun q => (s, q.1, q.2)) ++ entriesOf rest) .keyNotFound hset
      (fun k₀ v₀ h => by cases h)
    show loadEntries venv cenv { st with savedConfig := (s, (k, v) :: sub) :: rest }
      (entriesOf ((s, (k, v) :: sub) :: rest)) = _
    rw [entriesOf_cons_cons]
    exact habort
  · intro st₀ s₀ k₀ v₀ old hget hne hrej
    have hrejb := runValidators_reject venv _ v₀ hrej
    have hget' : get { st₀ with savedConfig := [(s₀, [(k₀, v₀)])] } s₀ k₀ = .ok old :=
      hget
    have hset := set_invalid venv cenv { st₀ with savedConfig := [(s₀, [(k₀, v₀)])] }
      s₀ k₀ v₀ old hget' hne hrejb
    have hle : loadEntries venv cenv { st₀ with savedConfig := [(s₀, [(k₀, v₀)])] }
        [(s₀, k₀, v₀)] =
        ⟨{ st₀ with savedConfig := [(s₀, [(k₀, v₀)])] },
          (runValidators venv ((alistGet st₀.validators (s₀, k₀)).getD []) v₀).1, [],
          none⟩ := by
      simp [loadEntries, hset]
    have hloadeq : load venv cenv st₀ (.json [(s₀, [(k₀, v₀)])]) =
        ⟨{ st₀ with savedConfig := [(s₀, [(k₀, v₀)])] },
          (runValidators venv ((alistGet st₀.validators (s₀, k₀)).getD []) v₀).1, [],
          none⟩ := by
      show loadEntries venv cenv { st₀ with savedConfig := [(s₀, [(k₀, v₀)])] }
        [(s₀, k₀, v₀)] = _
      exact hle
    exact ⟨by rw [hloadeq], by rw [hloadeq]⟩

/-- C9 witness: loading `{"b": {"y": 5}}` with `("b","y")` unregistered
aborts with `KeyNotFound`; loading `{"a": {"x": 5}}` where validator 1
rejects `5` completes with the store unchanged except the baseline. -/
theorem config_c9_witness :
    load venvLt5 cenvOk stAX (.json [("b", [("y", 5)])]) =
      ⟨{ stAX with savedConfig := [("b", [("y", 5)])] }, [], [], some .keyNotFound⟩ ∧
    (load venvLt5 cenvOk stAXval (.json [("a", [("x", 5)])])).err = none ∧
    (load venvLt5 cenvOk stAXval (.json [("a", [("x", 5)])])).state =
      { stAXval with savedConfig := [("a", [("x", 5)])] } := by
  have h := config_c9 venvLt5 cenvOk stAX "b" "y" (5 : Int) [] []
  exact ⟨h.1 rfl rfl,
    (h.2 stAXval "a" "x" 5 0 rfl (by decide) ⟨1, by decide, rfl⟩).1,
    (h.2 stAXval "a" "x" 5 0 rfl (by decide) ⟨1, by decide, rfl⟩).2⟩

/-- When `run_now`'s `get` raises, `connect` propagates it but the appended
registry stays. -/
theorem connect_run_now_error (cenv : Nat → V → Option Nat) (st : ConfigState V)
    (s k : String) (cb : Nat) (e : PyErr V)
    (h : get (connectAppend st s k cb) s k = .error e) :
    connect cenv st s k cb true = ⟨connectAppend st s k cb, [], [], some e⟩ := by
  simp only [connect, if_pos rfl]
  rw [h]
  simp

/-- When `run_now`'s immediate invocation raises inside the callback,
`connect` propagates it but the appended registry stays. -/
theorem connect_run_now_raise (cenv : Nat → V → Option Nat) (st : ConfigState V)
    (s k : String) (cb : Nat) (v : V) (e : Nat)
    (hg : get (connectAppend st s k cb) s k = .ok v)
    (hr : cenv cb v = some e) :
    connect cenv st s k cb true =
      ⟨connectAppend st s k cb, [], [(cb, v)], some (.callbackExc e)⟩ := by
  simp only [connect, if_pos rfl]
  rw [hg]
  simp [hr]

/-- A registered callback is reached by the callback loop provided no
*other* callback raises first (it may itself raise: it is still called). -/
theorem mem_runCallbacks_trace (cenv : Nat → V → Option Nat) (cbs : List Nat) (v : V)
    (cb : Nat) (hmem : cb ∈ cbs) (hothers : ∀ c ∈ cbs, c ≠ cb → cenv c v = none) :
    (cb, v) ∈ (runCallbacks cenv cbs v).1 := by
  induction cbs with
  | nil => simp at hmem
  | cons c rest ih =>
      by_cases hc : c = cb
      · subst hc
        cases hraise : cenv c v with
        | some e => simp [runCallbacks, hraise]
        | none => simp [runCallbacks, hraise]
      · have hcnone := hothers c (by simp) hc
        have hmem' : cb ∈ rest := by
          rcases List.mem_cons.mp hmem with rfl | hm
          · exact absurd rfl hc
          · exact hm
        have hrec := ih hmem' (fun c' h' hne => hothers c' (by simp [h']) hne)
        simp only [runCallbacks, hcnone]
        exact List.mem_cons_of_mem _ hrec

/-- C10: `connect(section, key, callback, run_now=True)` appends the callback
to the registry *before* the immediate invocation; if that invocation raises
(`KeyError` because the key is unregistered, or the callback's own
exception), the exception propagates out of `connect` but the callback stays
registered, and later mutating sets do invoke it: `connect` is not atomic on
error. -/
theorem config_c10 (cenv : Nat → V → Option Nat) (s k : String) (cb : Nat) :
    (∀ st : ConfigState V, (connect cenv st s k cb true).state.callbacks =
      alistSet st.callbacks (s, k) (((alistGet st.callbacks (s, k)).getD []) ++ [cb])) ∧
    (∀ st : ConfigState V, dictGet2 st.config s k = none →
      dictGet2 st.defaultConfig s k = none →
      (connect cenv st s k cb true).err = some .keyNotFound ∧
      cb ∈ (alistGet (connect cenv st s k cb true).state.callbacks (s, k)).getD []) ∧
    (∀ (st : ConfigState V) v e, get st s k = .ok v → cenv cb v = some e →
      (connect cenv st s k cb true).err = some (.callbackExc e) ∧
      (connect cenv st s k cb true).invoked = [(cb, v)] ∧
      cb ∈ (alistGet (connect cenv st s k cb true).state.callbacks (s, k)).getD []) ∧
    (∀ (venv : Nat → V → Bool) (st₂ : ConfigState V) (v old d : V),
      cb ∈ (alistGet st₂.callbacks (s, k)).getD [] →
      get st₂ s k = .ok old → v ≠ old →
      (∀ r ∈ (alistGet st₂.validators (s, k)).getD [], venv r v = true) →
      dictGet2 st₂.defaultConfig s k = some d →
      (∀ c ∈ (alistGet st₂.callbacks (s, k)).getD [], c ≠ cb → cenv c v = none) →
      (cb, v) ∈ (set venv cenv st₂ s k v).invoked) := by
  have hmemA : ∀ st : ConfigState V,
      cb ∈ (alistGet (alistSet st.callbacks (s, k)
        (((alistGet st.callbacks (s, k)).getD []) ++ [cb])) (s, k)).getD [] := by
    intro st
    rw [alistGet_set_self]
    simp
  refine ⟨fun st => ?_, fun st hc hd => ?_, fun st v e hgv hr => ?_,
    fun venv st₂ v old d hmem hget hne hvv hd hcb => ?_⟩
  · rw [connect_state_eq]
    rfl
  · have hg : get (connectAppend st s k cb) s k = .error .keyNotFound :=
      get_of_neither _ s k hc hd
    rw [connect_run_now_error cenv st s k cb .keyNotFound hg]
    exact ⟨rfl, hmemA st⟩
  · have hg : get (connectAppend st s k cb) s k = .ok v := hgv
    rw [connect_run_now_raise cenv st s k cb v e hg hr]
    exact ⟨rfl, rfl, hmemA st⟩
  · have hacc : (runValidators venv ((alistGet st₂.validators (s, k)).getD []) v).2
        = true := by
      rw [runValidators_all_true venv _ v hvv]
    have hmut := set_mutation_invoked venv cenv st₂ s k v old d hget hne hacc hd
    rw [hmut.1]
    exact mem_runCallbacks_trace cenv _ v cb hmem hcb

/-- C10 witness: connecting raising callback 7 after listeners 4 and 5 — on
an unregistered key the `KeyError` propagates yet 7 stays registered; on the
registered key 7's own exception propagates after its immediate invocation;
and a later set still invokes 7. -/
theorem config_c10_witness :
    (connect cenvRaise7 (initState Int) "a" "x" 7 true).err = some .keyNotFound ∧
    7 ∈ (alistGet (connect cenvRaise7 (initState Int) "a" "x" 7
      true).state.callbacks ("a", "x")).getD [] ∧
    (connect cenvRaise7 stAX "a" "x" 7 true).err = some (.callbackExc 3) ∧
    (connect cenvRaise7 stAX "a" "x" 7 true).invoked = [(7, 0)] ∧
    ((7 : Nat), (2 : Int)) ∈
      (set venvAll cenvRaise7 (connect cenvRaise7 stAXcb "a" "x" 7 false).state
        "a" "x" 2).invoked := by
  have h := config_c10 (V := Int) cenvRaise7 "a" "x" 7
  exact ⟨(h.2.1 (initState Int) rfl rfl).1,
    (h.2.1 (initState Int) rfl rfl).2,
    (h.2.2.1 stAX 0 3 rfl rfl).1,
    (h.2.2.1 stAX 0 3 rfl rfl).2.1,
    h.2.2.2 venvAll (connect cenvRaise7 stAXcb "a" "x" 7 false).state 2 0 0
      (by decide) rfl (by decide) (by decide) rfl (by decide)⟩

end Porcupine
